import Mathlib

/-!
Verification of the data-migration scripts of the repository
(BG_Utility_Geodatabase.py, ROM_Utility_Geodatabase.py,
add_DB_GLOBALID__DB_OBJECTID.py).

The scripts move attribute values between feature classes of a
geodatabase and derive status fields from spatial predicates that are
delegated to the external GIS library.  The embedding below models a
field value as an inductive `Value` (null / integer / string, enough to
express Python truthiness), a feature-class row as a small structure per
routine, and each routine as a pure function from the rows it reads to
the rows it writes.  Spatial predicates (`within`, `touches`,
`disjoint`) are external, so they are taken as boolean-function
parameters; spatial-join results are taken as the list of rows the join
produced.  Editor (transaction) behaviour is modelled as the list of
editor events a routine emits.
-/

/-- A field value of a geodatabase row, with just enough structure to
express Python truthiness: `None`, numbers and strings. -/
inductive Value where
  | null
  | int (i : Int)
  | str (s : String)
  deriving DecidableEq, Repr

/-- Python truthiness of a field value: `None`, `0` and `""` are falsy. -/
def Value.truthy : Value → Bool
  | .null => false
  | .int i => i != 0
  | .str s => s != ""

/-- A row as read by `update_fc_from_dict`: the key field followed by the
values of the paired fields (source fields on the source side,
destination fields on the destination side), in `field_pairs` order. -/
structure FRow where
  key : Value
  vals : List Value
  deriving DecidableEq, Repr

/-- The lookup built by the `SearchCursor` loop of `update_fc_from_dict`
(`origin_fc_dict[key] = {...}`): a Python dict assignment lets the last
row with a given key win, so lookup finds the last matching source row. -/
def dictLookup (src : List FRow) (k : Value) : Option (List Value) :=
  (src.reverse.find? (fun r => r.key == k)).map (fun r => r.vals)

/-- The body of the `UpdateCursor` loop of `update_fc_from_dict`: when the
destination row's key is a key of the dict, each destination field
receives the paired source field's value (`row[i+1] = related_data[...]`);
otherwise the row is left as it is (the `else: pass` branch). -/
def updateRowFromDict (src : List FRow) (r : FRow) : FRow :=
  match dictLookup src r.key with
  | some vals => { r with vals := vals }
  | none => r

/-- `update_fc_from_dict` (BG lines 3-45, ROM lines 3-33): the
`UpdateCursor` only visits the destination rows selected by
`where_clause`, modelled by the predicate `sel`; rows it visits are
updated by `updateRowFromDict`, rows outside the selection are untouched. -/
def update_fc_from_dict (src dst : List FRow) (sel : FRow → Bool) : List FRow :=
  dst.map (fun r => if sel r then updateRowFromDict src r else r)

theorem find_key_of_nodup (l : List FRow) (hnd : (l.map FRow.key).Nodup)
    (s : FRow) (hs : s ∈ l) : l.find? (fun r => r.key == s.key) = some s := by
  induction l with
  | nil => cases hs
  | cons a tl ih =>
    simp only [List.map_cons, List.nodup_cons] at hnd
    rcases List.mem_cons.mp hs with h | h
    · subst h
      simp [List.find?]
    · have hak : a.key ≠ s.key := by
        intro heq
        exact hnd.1 (heq ▸ List.mem_map_of_mem FRow.key h)
      have : (a.key == s.key) = false := by
        simpa using hak
      simp [List.find?, this, ih hnd.2 h]

theorem dictLookup_eq_of_mem (src : List FRow)
    (hnd : (src.map FRow.key).Nodup) (s : FRow) (hs : s ∈ src) :
    dictLookup src s.key = some s.vals := by
  have hnd' : (src.reverse.map FRow.key).Nodup := by
    rw [List.map_reverse]
    exact List.nodup_reverse.mpr hnd
  have hs' : s ∈ src.reverse := List.mem_reverse.mpr hs
  unfold dictLookup
  rw [find_key_of_nodup src.reverse hnd' s hs']
  rfl

theorem dictLookup_eq_none (src : List FRow) (k : Value)
    (h : ∀ s ∈ src, s.key ≠ k) : dictLookup src k = none := by
  unfold dictLookup
  have : src.reverse.find? (fun r => r.key == k) = none := by
    rw [List.find?_eq_none]
    intro x hx
    simpa using h x (List.mem_reverse.mp hx)
  rw [this]
  rfl

/-- C1: for a destination row selected by `where_clause`, when the source
feature class holds a (unique-keyed) row whose key equals the destination
row's key, `update_fc_from_dict` overwrites the destination row's paired
fields with that source row's paired field values (key untouched); when
no source row has that key, the destination row is left completely
unchanged. -/
theorem update_fc_from_dict_copies_on_key_match
    (src dst : List FRow) (sel : FRow → Bool) (i : Nat) (r : FRow)
    (hr : dst[i]? = some r) (hsel : sel r = true) :
    ((src.map FRow.key).Nodup → ∀ s ∈ src, s.key = r.key →
        (update_fc_from_dict src dst sel)[i]? = some { r with vals := s.vals }) ∧
    ((∀ s ∈ src, s.key ≠ r.key) →
        (update_fc_from_dict src dst sel)[i]? = some r) := by
  constructor
  · intro hnd s hs hk
    have hl : dictLookup src r.key = some s.vals := by
      rw [← hk]
      exact dictLookup_eq_of_mem src hnd s hs
    simp [update_fc_from_dict, List.getElem?_map, hr, hsel, updateRowFromDict, hl]
  · intro hnone
    have hl : dictLookup src r.key = none := dictLookup_eq_none src r.key hnone
    simp [update_fc_from_dict, List.getElem?_map, hr, hsel, updateRowFromDict, hl]

/-- Witness for C1 at a concrete input: a one-row source and destination
sharing key `1`; the destination's field receives the source value. -/
theorem update_fc_from_dict_copies_on_key_match_witness :
    (update_fc_from_dict [⟨.int 1, [.str "v"]⟩] [⟨.int 1, [.null]⟩]
      (fun _ => true))[0]? = some ⟨.int 1, [.str "v"]⟩ := by
  have h := (update_fc_from_dict_copies_on_key_match
      [⟨.int 1, [.str "v"]⟩] [⟨.int 1, [.null]⟩] (fun _ => true) 0
      ⟨.int 1, [.null]⟩ rfl rfl).1 (by simp) ⟨.int 1, [.str "v"]⟩
      (by simp) rfl
  simpa using h

/-- A geodatabase seen as a map from feature-class names to their rows;
`update_fc_from_dict` first reads the whole source through a
`SearchCursor`, then writes through an `UpdateCursor` opened on the
destination feature class only. -/
def update_fc_from_dict_db (db : String → List FRow)
    (src_fc dst_fc : String) (sel : FRow → Bool) : String → List FRow :=
  fun name =>
    if name = dst_fc then update_fc_from_dict (db src_fc) (db dst_fc) sel
    else db name

/-- C7: `update_fc_from_dict` never modifies the source feature class:
the only feature class written through an `UpdateCursor` is the
destination, so after the call the source feature class (distinct from
the destination) holds exactly the rows it held before. -/
theorem update_fc_from_dict_preserves_source
    (db : String → List FRow) (src_fc dst_fc : String) (sel : FRow → Bool)
    (h : src_fc ≠ dst_fc) :
    update_fc_from_dict_db db src_fc dst_fc sel src_fc = db src_fc := by
  simp [update_fc_from_dict_db, h]

/-- Witness for C7 at a concrete input: two distinct feature-class names
over a database holding one row under each name. -/
theorem update_fc_from_dict_preserves_source_witness :
    update_fc_from_dict_db
      (fun name => if name = "Bay" then [⟨.int 2, [.null]⟩] else [⟨.int 1, [.str "v"]⟩])
      "SwitchingFacility" "Bay" (fun _ => true) "SwitchingFacility"
      = [⟨.int 1, [.str "v"]⟩] := by
  have h := update_fc_from_dict_preserves_source
      (fun name => if name = "Bay" then [⟨.int 2, [.null]⟩] else [⟨.int 1, [.str "v"]⟩])
      "SwitchingFacility" "Bay" (fun _ => true) (by decide)
  simpa using h

/-- A row of the inner feature class of `update_fc_within`: its geometry
(`SHAPE@`, possibly null), its `MIG_PARENTTYPE` field, and the remaining
fields of the row, which the routine never touches. -/
structure InnerRow (G : Type) where
  geom : Option G
  parenttype : Value
  rest : List Value
  deriving DecidableEq, Repr

/-- The body of the `UpdateCursor` loop of `update_fc_within` (BG lines
60-69): a row with null geometry is skipped; otherwise, when the inner
geometry is `within` some non-null outer polygon, `MIG_PARENTTYPE` is set
to `'Station'`, else the row is not written. -/
def innerRowUpdate {G : Type} (within : G → G → Bool)
    (outers : List (Option G)) (r : InnerRow G) : InnerRow G :=
  match r.geom with
  | none => r
  | some g =>
    if outers.any (fun o => match o with
        | some p => within g p
        | none => false) then
      { r with parenttype := .str "Station" }
    else r

/-- `update_fc_within` (BG lines 48-76, ROM lines 35-49): the geometric
predicate `within` is delegated to the GIS library, so it is a parameter;
`outers` is the list of `SHAPE@` values read from the outer feature
class. -/
def update_fc_within {G : Type} (within : G → G → Bool)
    (outers : List (Option G)) (rows : List (InnerRow G)) : List (InnerRow G) :=
  rows.map (innerRowUpdate within outers)

/-- C6: `update_fc_within` sets `MIG_PARENTTYPE` to `'Station'` for
exactly the inner rows whose geometry is within at least one outer
polygon, leaving their other fields unchanged; every other inner row is
left completely unchanged. -/
theorem update_fc_within_sets_station {G : Type} (within : G → G → Bool)
    (outers : List (Option G)) (rows : List (InnerRow G)) (i : Nat) (r : InnerRow G)
    (hr : rows[i]? = some r) :
    ((∃ g, r.geom = some g ∧ ∃ o ∈ outers, ∃ p, o = some p ∧ within g p = true) →
        (update_fc_within within outers rows)[i]? =
          some { r with parenttype := .str "Station" }) ∧
    ((¬ ∃ g, r.geom = some g ∧ ∃ o ∈ outers, ∃ p, o = some p ∧ within g p = true) →
        (update_fc_within within outers rows)[i]? = some r) := by
  have hmap : (update_fc_within within outers rows)[i]? =
      some (innerRowUpdate within outers r) := by
    simp [update_fc_within, List.getElem?_map, hr]
  constructor
  · rintro ⟨g, hg, o, ho, p, hp, hw⟩
    rw [hmap]
    have hany : outers.any (fun o => match o with
        | some p => within g p
        | none => false) = true := by
      rw [List.any_eq_true]
      exact ⟨o, ho, by rw [hp]; exact hw⟩
    simp [innerRowUpdate, hg, hany]
  · intro hno
    rw [hmap]
    match hgm : r.geom with
    | none => simp [innerRowUpdate, hgm]
    | some g =>
      have hany : outers.any (fun o => match o with
          | some p => within g p
          | none => false) = false := by
        rw [List.any_eq_false]
        rintro o ho
        match hop : o with
        | none => simp
        | some p =>
          simp only [Bool.not_eq_true]
          by_contra hc
          exact hno ⟨g, hgm, some p, ho, p, rfl, by simpa using hc⟩
      simp [innerRowUpdate, hgm, hany]

/-- Witness for C6 at a concrete input: one row with geometry `0`, one
outer polygon `5`, a `within` predicate that holds for the pair, so the
row's parent type becomes `'Station'` while its other fields survive. -/
theorem update_fc_within_sets_station_witness :
    (update_fc_within (fun (g p : Nat) => g < p) [some 5]
        [⟨some 0, .null, [.str "keep"]⟩])[0]? =
      some ⟨some 0, .str "Station", [.str "keep"]⟩ := by
  have h := (update_fc_within_sets_station (fun (g p : Nat) => g < p) [some 5]
      [⟨some 0, .null, [.str "keep"]⟩] 0 ⟨some 0, .null, [.str "keep"]⟩ rfl).1
      ⟨0, rfl, some 5, by simp, 5, rfl, by decide⟩
  simpa using h

/-- A destination row of the inner `update_field` of `update_mig_voltage`:
the identifier field (`OBJECTID` / `NewGUID`) and the `MIG_VOLTAGE` field. -/
structure VRow where
  guid : Value
  mig_voltage : Value
  deriving DecidableEq, Repr

/-- The lookup built by the `SearchCursor` loop of `update_field` (BG
lines 145-150, ROM lines 102-107): a source pair is inserted only when
both its key and its voltage are truthy (`if key and voltage`), and a
later insertion with the same key wins. -/
def voltageLookup (src : List (Value × Value)) (k : Value) : Option Value :=
  (((src.filter (fun p => p.1.truthy && p.2.truthy)).reverse).find?
    (fun p => p.1 == k)).map (fun p => p.2)

/-- The body of the `UpdateCursor` loop of `update_field`: when the
destination row's identifier is a key of the dict, `MIG_VOLTAGE` receives
the stored voltage; otherwise the row is not written. -/
def voltageRowUpdate (src : List (Value × Value)) (r : VRow) : VRow :=
  match voltageLookup src r.guid with
  | some v => { r with mig_voltage := v }
  | none => r

/-- The inner `update_field` of `update_mig_voltage` (BG lines 128-166,
ROM lines 89-113), applied to every destination row. -/
def update_field (src : List (Value × Value)) (dst : List VRow) : List VRow :=
  dst.map (voltageRowUpdate src)

/-- C10: `update_field` either leaves a destination row unchanged or
overwrites its `MIG_VOLTAGE` with the voltage of a source row whose key
and voltage are both truthy, so a zero or empty voltage is never
written; a destination row whose key matches only falsy source rows is
left unchanged. -/
theorem update_field_never_writes_falsy_voltage
    (src : List (Value × Value)) (dst : List VRow) (i : Nat) (r : VRow)
    (hr : dst[i]? = some r) :
    ((update_field src dst)[i]? = some r ∨
      ∃ p ∈ src, p.1 = r.guid ∧ p.1.truthy = true ∧ p.2.truthy = true ∧
        (update_field src dst)[i]? = some { r with mig_voltage := p.2 }) ∧
    ((∀ p ∈ src, p.1 = r.guid → p.1.truthy = false ∨ p.2.truthy = false) →
        (update_field src dst)[i]? = some r) := by
  have hmap : (update_field src dst)[i]? = some (voltageRowUpdate src r) := by
    simp [update_field, List.getElem?_map, hr]
  constructor
  · match hl : voltageLookup src r.guid with
    | none =>
      left
      rw [hmap]
      simp [voltageRowUpdate, hl]
    | some v =>
      right
      unfold voltageLookup at hl
      match hf : (src.filter (fun p => p.1.truthy && p.2.truthy)).reverse.find?
          (fun p => p.1 == r.guid) with
      | none => rw [hf] at hl; cases hl
      | some p =>
        rw [hf] at hl
        have hpv : p.2 = v := by simpa using hl
        have hmem : p ∈ (src.filter (fun p => p.1.truthy && p.2.truthy)).reverse :=
          List.mem_of_find?_eq_some hf
        have hmem' : p ∈ src.filter (fun p => p.1.truthy && p.2.truthy) :=
          List.mem_reverse.mp hmem
        have hsrc : p ∈ src := (List.mem_filter.mp hmem').1
        have htruthy : (p.1.truthy && p.2.truthy) = true := (List.mem_filter.mp hmem').2
        have ht2 : p.1.truthy = true ∧ p.2.truthy = true := by simpa using htruthy
        have hkey : p.1 = r.guid := by
          have := List.find?_some hf
          simpa using this
        refine ⟨p, hsrc, hkey, ?_, ?_, ?_⟩
        · exact ht2.1
        · exact ht2.2
        · rw [hmap]
          simp [voltageRowUpdate]
          rw [show voltageLookup src r.guid = some v by
            unfold voltageLookup; rw [hf]; simpa using hpv]
          rw [hpv]
  · intro hfalsy
    have hl : voltageLookup src r.guid = none := by
      unfold voltageLookup
      have : (src.filter (fun p => p.1.truthy && p.2.truthy)).reverse.find?
          (fun p => p.1 == r.guid) = none := by
        rw [List.find?_eq_none]
        intro p hp
        have hp' : p ∈ src.filter (fun p => p.1.truthy && p.2.truthy) :=
          List.mem_reverse.mp hp
        have hsrc : p ∈ src := (List.mem_filter.mp hp').1
        have htruthy : (p.1.truthy && p.2.truthy) = true := (List.mem_filter.mp hp').2
        intro hbe
        have hkey : p.1 = r.guid := by simpa using hbe
        have ht2 : p.1.truthy = true ∧ p.2.truthy = true := by simpa using htruthy
        rcases hfalsy p hsrc hkey with h | h
        · rw [ht2.1] at h; cases h
        · rw [ht2.2] at h; cases h
      rw [this]
      rfl
    rw [hmap]
    simp [voltageRowUpdate, hl]

/-- Witness for C10 at a concrete input: the only source row matching the
destination key `1` carries voltage `0`, so the destination row keeps its
old voltage. -/
theorem update_field_never_writes_falsy_voltage_witness :
    (update_field [(.int 1, .int 0)] [⟨.int 1, .str "20kV"⟩])[0]? =
      some ⟨.int 1, .str "20kV"⟩ := by
  exact (update_field_never_writes_falsy_voltage [(.int 1, .int 0)]
    [⟨.int 1, .str "20kV"⟩] 0 ⟨.int 1, .str "20kV"⟩ rfl).2 (by decide)

/-- The overhead subtype labels of `update_conductor_type` (BG line 263). -/
def overheadTypes : List Value :=
  [.str "Въздушна линия ВН", .str "Въздушна линия СрН", .str "Въздушна линия НН",
   .str "Въздушна изолирана линия СрН", .str "Въздушна изолирана линия НН"]

/-- The underground subtype labels of `update_conductor_type` (BG line 264). -/
def undergroundTypes : List Value :=
  [.str "Кабелна линия ВН", .str "Кабелна линия СрН", .str "Кабелна линия НН",
   .str "Земно въже ВН", .str "Земно въже СрН"]

/-- `classify_junction` (BG lines 241-247): all subtypes overhead gives
`"Overhead Conductor"`, else all underground gives
`"Underground Conductor"`, else the mixed label. -/
def classify_junction (subtypes overhead underground : List Value) : String :=
  if subtypes.all (fun s => overhead.contains s) then "Overhead Conductor"
  else if subtypes.all (fun s => underground.contains s) then "Underground Conductor"
  else "Overhead Conductor Underground Conductor"

/-- The subtype set that `update_conductor_type` accumulates for a
`TARGET_FID` from the rows of the one-to-many spatial join
(`junction_conductor_map`, BG lines 265-271): the subtypes of all join
rows with that fid.  The fid is a key of the map exactly when this list
is nonempty. -/
def subtypesOf (join : List (Value × Value)) (fid : Value) : List Value :=
  (join.filter (fun p => p.1 == fid)).map (fun p => p.2)

/-- A row of the target feature class of `update_conductor_type`:
`MIG_PARENTTYPE` and `OBJECTID`. -/
structure JRow where
  parenttype : Value
  oid : Value
  deriving DecidableEq, Repr

/-- The body of the `UpdateCursor` loop of `update_conductor_type` (BG
lines 277-283): a row is rewritten exactly when its `MIG_PARENTTYPE` is
`'Conductor'` and its `OBJECTID` is a key of the join map, in which case
`MIG_PARENTTYPE` becomes the classification of the accumulated subtypes. -/
def conductorRowUpdate (join : List (Value × Value)) (r : JRow) : JRow :=
  if r.parenttype == .str "Conductor" && !(subtypesOf join r.oid).isEmpty then
    { r with parenttype :=
        Value.str (classify_junction (subtypesOf join r.oid) overheadTypes undergroundTypes) }
  else r

/-- `update_conductor_type` (BG lines 249-294) applied to the target rows. -/
def update_conductor_type (join : List (Value × Value)) (rows : List JRow) : List JRow :=
  rows.map (conductorRowUpdate join)

theorem overhead_underground_disjoint : ∀ v ∈ overheadTypes, v ∉ undergroundTypes := by
  decide

/-- C5: `update_conductor_type` rewrites exactly the rows whose
`MIG_PARENTTYPE` is `'Conductor'` and whose `OBJECTID` met at least one
conductor in the spatial join, setting it to `classify_junction` of the
intersected subtypes; and `classify_junction` on a nonempty subtype set
returns `"Overhead Conductor"` when all subtypes are overhead,
`"Underground Conductor"` when all are underground, and the mixed label
when neither set covers the subtypes. -/
theorem update_conductor_type_spec
    (join : List (Value × Value)) (rows : List JRow) (i : Nat) (r : JRow)
    (hr : rows[i]? = some r) :
    (¬(r.parenttype = .str "Conductor" ∧ subtypesOf join r.oid ≠ []) →
        (update_conductor_type join rows)[i]? = some r) ∧
    (r.parenttype = .str "Conductor" → subtypesOf join r.oid ≠ [] →
        (update_conductor_type join rows)[i]? =
          some { r with parenttype := Value.str (classify_junction (subtypesOf join r.oid) overheadTypes undergroundTypes) }) ∧
    (∀ subtypes : List Value, subtypes ≠ [] →
        ((∀ s ∈ subtypes, s ∈ overheadTypes) →
            classify_junction subtypes overheadTypes undergroundTypes =
              "Overhead Conductor") ∧
        ((∀ s ∈ subtypes, s ∈ undergroundTypes) →
            classify_junction subtypes overheadTypes undergroundTypes =
              "Underground Conductor") ∧
        ((∃ s ∈ subtypes, s ∉ overheadTypes) → (∃ s ∈ subtypes, s ∉ undergroundTypes) →
            classify_junction subtypes overheadTypes undergroundTypes =
              "Overhead Conductor Underground Conductor")) := by
  have hmap : (update_conductor_type join rows)[i]? =
      some (conductorRowUpdate join r) := by
    simp [update_conductor_type, List.getElem?_map, hr]
  refine ⟨?_, ?_, ?_⟩
  · intro hno
    rw [hmap]
    have hcond : (r.parenttype == Value.str "Conductor"
        && !(subtypesOf join r.oid).isEmpty) = false := by
      rcases Decidable.not_and_iff_or_not.mp hno with h | h
      · have : (r.parenttype == Value.str "Conductor") = false := by simpa using h
        simp [this]
      · have : (subtypesOf join r.oid).isEmpty = true := by
          simpa [List.isEmpty_iff] using h
        simp [this]
    simp [conductorRowUpdate, hcond]
  · intro hpt hne
    rw [hmap]
    have hcond : (r.parenttype == Value.str "Conductor"
        && !(subtypesOf join r.oid).isEmpty) = true := by
      have h1 : (r.parenttype == Value.str "Conductor") = true := by simpa using hpt
      have h2 : (subtypesOf join r.oid).isEmpty = false := by
        simpa [List.isEmpty_iff] using hne
      simp [h1, h2]
    simp [conductorRowUpdate, hcond]
  · intro subtypes hne
    refine ⟨?_, ?_, ?_⟩
    · intro hall
      have h1 : subtypes.all (fun s => overheadTypes.contains s) = true := by
        rw [List.all_eq_true]
        intro s hs
        simpa using hall s hs
      simp only [classify_junction, h1]
      rfl
    · intro hall
      have h1 : subtypes.all (fun s => overheadTypes.contains s) = false := by
        rw [List.all_eq_false]
        match subtypes, hne with
        | s :: rest, _ =>
          refine ⟨s, List.mem_cons_self s rest, ?_⟩
          have hs : s ∈ undergroundTypes := hall s (List.mem_cons_self s rest)
          have hno : s ∉ overheadTypes := by
            intro hc
            exact overhead_underground_disjoint s hc hs
          simpa using hno
      have h2 : subtypes.all (fun s => undergroundTypes.contains s) = true := by
        rw [List.all_eq_true]
        intro s hs
        simpa using hall s hs
      simp only [classify_junction, h1, h2]
      rfl
    · rintro ⟨s, hs, hsno⟩ ⟨t, ht, htno⟩
      have h1 : subtypes.all (fun s => overheadTypes.contains s) = false := by
        rw [List.all_eq_false]
        exact ⟨s, hs, by simpa using hsno⟩
      have h2 : subtypes.all (fun s => undergroundTypes.contains s) = false := by
        rw [List.all_eq_false]
        exact ⟨t, ht, by simpa using htno⟩
      simp only [classify_junction, h1, h2]
      rfl

/-- Witness for C5 at a concrete input: a `'Conductor'` row whose object
id met a single underground conductor is relabelled
`"Underground Conductor"`; the classification value is evaluated on the
concrete subtype list. -/
theorem update_conductor_type_spec_witness :
    (update_conductor_type [(.int 1, .str "Кабелна линия ВН")]
        [⟨.str "Conductor", .int 1⟩])[0]? =
      some ⟨.str "Underground Conductor", .int 1⟩ := by
  have h := (update_conductor_type_spec [(.int 1, .str "Кабелна линия ВН")]
      [⟨.str "Conductor", .int 1⟩] 0 ⟨.str "Conductor", .int 1⟩ rfl).2.1 rfl
      (by decide)
  have hc : classify_junction (subtypesOf [(.int 1, .str "Кабелна линия ВН")] (.int 1))
      overheadTypes undergroundTypes = "Underground Conductor" := by decide
  rw [hc] at h
  exact h

/-- A row of the point feature class of
`update_point_fc_within_station_boundary`: `SHAPE@` (possibly null),
`MIG_STATIONGUID`, and the status field (`POINT_STATUS`). -/
structure PointRow (G : Type) where
  geom : Option G
  guid : Value
  status : Value
  deriving DecidableEq, Repr

/-- The station loop of `update_point_fc_within_station_boundary` (BG
lines 395-409): stations are visited in dictionary order, a null station
polygon is skipped, and the loop breaks at the first station whose
polygon the point is `within` (giving `'Inside'`) or, failing that,
`touches` (giving `'On Boundary'`). -/
def classifyPointAux {G : Type} (within touches : G → G → Bool) (g : G) :
    List (Value × Option G) → Option (Value × String)
  | [] => none
  | (gid, stG) :: rest =>
    match stG with
    | none => classifyPointAux within touches g rest
    | some poly =>
      if within g poly then some (gid, "Inside")
      else if touches g poly then some (gid, "On Boundary")
      else classifyPointAux within touches g rest

/-- The body of the `UpdateCursor` loop of
`update_point_fc_within_station_boundary` (BG lines 388-413): a row with
null geometry is skipped; otherwise the first matching station sets the
guid and status, and if no station matched the row becomes `'Outside'`
with a null guid. -/
def pointRowUpdate {G : Type} (within touches : G → G → Bool)
    (stations : List (Value × Option G)) (r : PointRow G) : PointRow G :=
  match r.geom with
  | none => r
  | some g =>
    match classifyPointAux within touches g stations with
    | some (gid, s) => { r with guid := gid, status := Value.str s }
    | none => { r with guid := Value.null, status := Value.str "Outside" }

/-- `update_point_fc_within_station_boundary` (BG lines 361-424, ROM
lines 213-255) applied to the rows of the point feature class. -/
def update_point_fc_within_station_boundary {G : Type}
    (within touches : G → G → Bool) (stations : List (Value × Option G))
    (rows : List (PointRow G)) : List (PointRow G) :=
  rows.map (pointRowUpdate within touches stations)

/-- Counterexample to C2 as stated: the point (geometry `0`) is within
station `"B"`'s polygon, yet the routine classifies it `'On Boundary'`
(with station `"A"`'s guid), because station `"A"` comes first in the
iteration order and the point touches its polygon; the claim demands
`'Inside'` whenever the point is within some station polygon. -/
theorem pointRowUpdate_not_inside_when_within_some :
    ((fun (_ p : Nat) => p == 2) 0 2 = true ∧
      (Value.str "B", (some 2 : Option Nat)) ∈
        [(Value.str "A", (some 1 : Option Nat)), (Value.str "B", some 2)]) ∧
    (pointRowUpdate (fun _ p => p == 2) (fun _ p => p == 1)
        [(Value.str "A", (some 1 : Option Nat)), (Value.str "B", some 2)]
        ⟨some 0, Value.null, Value.null⟩).status = Value.str "On Boundary" ∧
    (pointRowUpdate (fun _ p => p == 2) (fun _ p => p == 1)
        [(Value.str "A", (some 1 : Option Nat)), (Value.str "B", some 2)]
        ⟨some 0, Value.null, Value.null⟩).status ≠ Value.str "Inside" ∧
    (pointRowUpdate (fun _ p => p == 2) (fun _ p => p == 1)
        [(Value.str "A", (some 1 : Option Nat)), (Value.str "B", some 2)]
        ⟨some 0, Value.null, Value.null⟩).guid = Value.str "A" := by
  decide

/-- The amended classification behaviour of
`update_point_fc_within_station_boundary` on a row with non-null
geometry: the first station (in iteration order, null polygons skipped)
whose polygon the point is within or touches determines the outcome,
`'Inside'` with that station's guid when within, `'On Boundary'` with
that station's guid when not within but touching; when no station
matches either way the row becomes `'Outside'` with a null guid. -/
def PointClassSpec {G : Type} (within touches : G → G → Bool)
    (stations : List (Value × Option G)) (r : PointRow G) (g : G) : Prop :=
  (∃ pre gid poly post,
      stations = pre ++ (gid, some poly) :: post ∧
      (∀ q ∈ pre, ∀ p, q.2 = some p → within g p = false ∧ touches g p = false) ∧
      ((within g poly = true ∧
          pointRowUpdate within touches stations r = { r with guid := gid, status := Value.str "Inside" }) ∨
       (within g poly = false ∧ touches g poly = true ∧
          pointRowUpdate within touches stations r = { r with guid := gid, status := Value.str "On Boundary" }))) ∨
  ((∀ q ∈ stations, ∀ p, q.2 = some p → within g p = false ∧ touches g p = false) ∧
      pointRowUpdate within touches stations r = { r with guid := Value.null, status := Value.str "Outside" })

theorem classifyPointAux_first_match {G : Type} (within touches : G → G → Bool)
    (g : G) (stations : List (Value × Option G)) :
    (∃ pre gid poly post,
        stations = pre ++ (gid, some poly) :: post ∧
        (∀ q ∈ pre, ∀ p, q.2 = some p → within g p = false ∧ touches g p = false) ∧
        ((within g poly = true ∧
            classifyPointAux within touches g stations = some (gid, "Inside")) ∨
         (within g poly = false ∧ touches g poly = true ∧
            classifyPointAux within touches g stations = some (gid, "On Boundary")))) ∨
    ((∀ q ∈ stations, ∀ p, q.2 = some p → within g p = false ∧ touches g p = false) ∧
        classifyPointAux within touches g stations = none) := by
  induction stations with
  | nil =>
    right
    exact ⟨by simp, rfl⟩
  | cons q rest ih =>
    match hq : q with
    | (gid, none) =>
      have hstep : classifyPointAux within touches g ((gid, none) :: rest) =
          classifyPointAux within touches g rest := rfl
      rcases ih with ⟨pre, gid', poly, post, heq, hpre, hres⟩ | ⟨hall, hres⟩
      · left
        refine ⟨(gid, none) :: pre, gid', poly, post, by simp [heq], ?_, ?_⟩
        · intro q' hq' p hp
          rcases List.mem_cons.mp hq' with h | h
          · subst h; cases hp
          · exact hpre q' h p hp
        · rwa [hstep]
      · right
        refine ⟨?_, by rwa [hstep]⟩
        intro q' hq' p hp
        rcases List.mem_cons.mp hq' with h | h
        · subst h; cases hp
        · exact hall q' h p hp
    | (gid, some poly) =>
      by_cases hw : within g poly = true
      · left
        refine ⟨[], gid, poly, rest, rfl, by simp, Or.inl ⟨hw, ?_⟩⟩
        simp [classifyPointAux, hw]
      · have hw' : within g poly = false := by simpa using hw
        by_cases ht : touches g poly = true
        · left
          refine ⟨[], gid, poly, rest, rfl, by simp, Or.inr ⟨hw', ht, ?_⟩⟩
          simp [classifyPointAux, hw', ht]
        · have ht' : touches g poly = false := by simpa using ht
          have hstep : classifyPointAux within touches g ((gid, some poly) :: rest) =
              classifyPointAux within touches g rest := by
            simp [classifyPointAux, hw', ht']
          rcases ih with ⟨pre, gid', poly', post, heq, hpre, hres⟩ | ⟨hall, hres⟩
          · left
            refine ⟨(gid, some poly) :: pre, gid', poly', post, by simp [heq], ?_, ?_⟩
            · intro q' hq' p hp
              rcases List.mem_cons.mp hq' with h | h
              · subst h
                cases hp
                exact ⟨hw', ht'⟩
              · exact hpre q' h p hp
            · rwa [hstep]
          · right
            refine ⟨?_, by rwa [hstep]⟩
            intro q' hq' p hp
            rcases List.mem_cons.mp hq' with h | h
            · subst h
              cases hp
              exact ⟨hw', ht'⟩
            · exact hall q' h p hp

/-- C2 (amended): a point row with non-null geometry is classified by the
first station in iteration order whose polygon it is within or touches
(`'Inside'`, resp. `'On Boundary'`, with that station's guid), and is
`'Outside'` with a null guid exactly when no station polygon matches
either predicate. -/
theorem update_point_fc_first_match_spec {G : Type}
    (within touches : G → G → Bool) (stations : List (Value × Option G))
    (r : PointRow G) (g : G) (hg : r.geom = some g) :
    PointClassSpec within touches stations r g := by
  obtain ⟨rg, rguid, rstatus⟩ := r
  have hg' : rg = some g := hg
  subst hg'
  have hup : ∀ o, classifyPointAux within touches g stations = o →
      pointRowUpdate within touches stations ⟨some g, rguid, rstatus⟩ =
        (match o with
          | some (gid, s) => ⟨some g, gid, Value.str s⟩
          | none => ⟨some g, Value.null, Value.str "Outside"⟩) := by
    intro o ho
    rw [← ho]
    rfl
  rcases classifyPointAux_first_match within touches g stations with
    ⟨pre, gid, poly, post, heq, hpre, hres⟩ | ⟨hall, hres⟩
  · left
    refine ⟨pre, gid, poly, post, heq, hpre, ?_⟩
    rcases hres with ⟨hw, hcl⟩ | ⟨hw, ht, hcl⟩
    · exact Or.inl ⟨hw, hup _ hcl⟩
    · exact Or.inr ⟨hw, ht, hup _ hcl⟩
  · right
    exact ⟨hall, hup _ hres⟩

/-- Witness for the amended C2 at the concrete counterexample input: the
first matching station is `"A"` via `touches`. -/
theorem update_point_fc_first_match_spec_witness :
    PointClassSpec (fun (_ p : Nat) => p == 2) (fun _ p => p == 1)
      [(Value.str "A", (some 1 : Option Nat)), (Value.str "B", some 2)]
      ⟨some 0, Value.null, Value.null⟩ 0 :=
  update_point_fc_first_match_spec (fun _ p => p == 2) (fun _ p => p == 1)
    [(Value.str "A", (some 1 : Option Nat)), (Value.str "B", some 2)]
    ⟨some 0, Value.null, Value.null⟩ 0 rfl

/-- A row of the line feature class of
`update_line_fc_within_station_boundary`: `SHAPE@` (possibly null),
`MIG_STATIONGUID`, and the status field (`LINE_STATUS`). -/
structure LineRow (G : Type) where
  geom : Option G
  guid : Value
  status : Value
  deriving DecidableEq, Repr

/-- The station loop of `update_line_fc_within_station_boundary` (BG
lines 329-343): stations are visited in dictionary order, a null station
polygon is skipped, and the loop breaks at the first station whose
polygon the line is `within` (giving `'Inside'`) or, failing that, not
`disjoint` from (giving `'Partly Inside'`). -/
def classifyLineAux {G : Type} (within disjoint : G → G → Bool) (g : G) :
    List (Value × Option G) → Option (Value × String)
  | [] => none
  | (gid, stG) :: rest =>
    match stG with
    | none => classifyLineAux within disjoint g rest
    | some poly =>
      if within g poly then some (gid, "Inside")
      else if !disjoint g poly then some (gid, "Partly Inside")
      else classifyLineAux within disjoint g rest

/-- The body of the `UpdateCursor` loop of
`update_line_fc_within_station_boundary` (BG lines 322-347): a row with
null geometry is skipped; otherwise the first matching station sets the
guid and status, and if no station matched the row becomes `'Outside'`
with a null guid. -/
def lineRowUpdate {G : Type} (within disjoint : G → G → Bool)
    (stations : List (Value × Option G)) (r : LineRow G) : LineRow G :=
  match r.geom with
  | none => r
  | some g =>
    match classifyLineAux within disjoint g stations with
    | some (gid, s) => { r with guid := gid, status := Value.str s }
    | none => { r with guid := Value.null, status := Value.str "Outside" }

/-- `update_line_fc_within_station_boundary` (BG lines 297-358, ROM lines
168-210) applied to the rows of the line feature class. -/
def update_line_fc_within_station_boundary {G : Type}
    (within disjoint : G → G → Bool) (stations : List (Value × Option G))
    (rows : List (LineRow G)) : List (LineRow G) :=
  rows.map (lineRowUpdate within disjoint stations)

/-- Counterexample to C3 as stated: the line (geometry `0`) is within
station `"B"`'s polygon, yet the routine classifies it `'Partly Inside'`
(with station `"A"`'s guid), because station `"A"` comes first in the
iteration order and the line is not disjoint from its polygon; the claim
demands `'Inside'` whenever the line is within some station polygon. -/
theorem lineRowUpdate_not_inside_when_within_some :
    ((fun (_ p : Nat) => p == 2) 0 2 = true ∧
      (Value.str "B", (some 2 : Option Nat)) ∈
        [(Value.str "A", (some 1 : Option Nat)), (Value.str "B", some 2)]) ∧
    (lineRowUpdate (fun _ p => p == 2) (fun _ _ => false)
        [(Value.str "A", (some 1 : Option Nat)), (Value.str "B", some 2)]
        ⟨some 0, Value.null, Value.null⟩).status = Value.str "Partly Inside" ∧
    (lineRowUpdate (fun _ p => p == 2) (fun _ _ => false)
        [(Value.str "A", (some 1 : Option Nat)), (Value.str "B", some 2)]
        ⟨some 0, Value.null, Value.null⟩).status ≠ Value.str "Inside" ∧
    (lineRowUpdate (fun _ p => p == 2) (fun _ _ => false)
        [(Value.str "A", (some 1 : Option Nat)), (Value.str "B", some 2)]
        ⟨some 0, Value.null, Value.null⟩).guid = Value.str "A" := by
  decide

/-- The amended classification behaviour of
`update_line_fc_within_station_boundary` on a row with non-null geometry:
the first station (in iteration order, null polygons skipped) whose
polygon the line is within or not disjoint from determines the outcome,
`'Inside'` with that station's guid when within, `'Partly Inside'` with
that station's guid when not within but intersecting; when the line is
within no station polygon and disjoint from all of them the row becomes
`'Outside'` with a null guid. -/
def LineClassSpec {G : Type} (within disjoint : G → G → Bool)
    (stations : List (Value × Option G)) (r : LineRow G) (g : G) : Prop :=
  (∃ pre gid poly post,
      stations = pre ++ (gid, some poly) :: post ∧
      (∀ q ∈ pre, ∀ p, q.2 = some p → within g p = false ∧ disjoint g p = true) ∧
      ((within g poly = true ∧
          lineRowUpdate within disjoint stations r = { r with guid := gid, status := Value.str "Inside" }) ∨
       (within g poly = false ∧ disjoint g poly = false ∧
          lineRowUpdate within disjoint stations r = { r with guid := gid, status := Value.str "Partly Inside" }))) ∨
  ((∀ q ∈ stations, ∀ p, q.2 = some p → within g p = false ∧ disjoint g p = true) ∧
      lineRowUpdate within disjoint stations r = { r with guid := Value.null, status := Value.str "Outside" })

theorem classifyLineAux_first_match {G : Type} (within disjoint : G → G → Bool)
    (g : G) (stations : List (Value × Option G)) :
    (∃ pre gid poly post,
        stations = pre ++ (gid, some poly) :: post ∧
        (∀ q ∈ pre, ∀ p, q.2 = some p → within g p = false ∧ disjoint g p = true) ∧
        ((within g poly = true ∧
            classifyLineAux within disjoint g stations = some (gid, "Inside")) ∨
         (within g poly = false ∧ disjoint g poly = false ∧
            classifyLineAux within disjoint g stations = some (gid, "Partly Inside")))) ∨
    ((∀ q ∈ stations, ∀ p, q.2 = some p → within g p = false ∧ disjoint g p = true) ∧
        classifyLineAux within disjoint g stations = none) := by
  induction stations with
  | nil =>
    right
    exact ⟨by simp, rfl⟩
  | cons q rest ih =>
    match hq : q with
    | (gid, none) =>
      have hstep : classifyLineAux within disjoint g ((gid, none) :: rest) =
          classifyLineAux within disjoint g rest := rfl
      rcases ih with ⟨pre, gid', poly, post, heq, hpre, hres⟩ | ⟨hall, hres⟩
      · left
        refine ⟨(gid, none) :: pre, gid', poly, post, by simp [heq], ?_, ?_⟩
        · intro q' hq' p hp
          rcases List.mem_cons.mp hq' with h | h
          · subst h; cases hp
          · exact hpre q' h p hp
        · rwa [hstep]
      · right
        refine ⟨?_, by rwa [hstep]⟩
        intro q' hq' p hp
        rcases List.mem_cons.mp hq' with h | h
        · subst h; cases hp
        · exact hall q' h p hp
    | (gid, some poly) =>
      by_cases hw : within g poly = true
      · left
        refine ⟨[], gid, poly, rest, rfl, by simp, Or.inl ⟨hw, ?_⟩⟩
        simp [classifyLineAux, hw]
      · have hw' : within g poly = false := by simpa using hw
        by_cases hd : disjoint g poly = false
        · left
          refine ⟨[], gid, poly, rest, rfl, by simp, Or.inr ⟨hw', hd, ?_⟩⟩
          simp [classifyLineAux, hw', hd]
        · have hd' : disjoint g poly = true := by
            rcases Bool.eq_false_or_eq_true (disjoint g poly) with h | h
            · exact h
            · exact absurd h hd
          have hstep : classifyLineAux within disjoint g ((gid, some poly) :: rest) =
              classifyLineAux within disjoint g rest := by
            simp [classifyLineAux, hw', hd']
          rcases ih with ⟨pre, gid', poly', post, heq, hpre, hres⟩ | ⟨hall, hres⟩
          · left
            refine ⟨(gid, some poly) :: pre, gid', poly', post, by simp [heq], ?_, ?_⟩
            · intro q' hq' p hp
              rcases List.mem_cons.mp hq' with h | h
              · subst h
                cases hp
                exact ⟨hw', hd'⟩
              · exact hpre q' h p hp
            · rwa [hstep]
          · right
            refine ⟨?_, by rwa [hstep]⟩
            intro q' hq' p hp
            rcases List.mem_cons.mp hq' with h | h
            · subst h
              cases hp
              exact ⟨hw', hd'⟩
            · exact hall q' h p hp

/-- C3 (amended): a line row with non-null geometry is classified by the
first station in iteration order whose polygon it is within or not
disjoint from (`'Inside'`, resp. `'Partly Inside'`, with that station's
guid), and is `'Outside'` with a null guid exactly when it is within no
station polygon and disjoint from every station polygon. -/
theorem update_line_fc_first_match_spec {G : Type}
    (within disjoint : G → G → Bool) (stations : List (Value × Option G))
    (r : LineRow G) (g : G) (hg : r.geom = some g) :
    LineClassSpec within disjoint stations r g := by
  obtain ⟨rg, rguid, rstatus⟩ := r
  have hg' : rg = some g := hg
  subst hg'
  have hup : ∀ o, classifyLineAux within disjoint g stations = o →
      lineRowUpdate within disjoint stations ⟨some g, rguid, rstatus⟩ =
        (match o with
          | some (gid, s) => ⟨some g, gid, Value.str s⟩
          | none => ⟨some g, Value.null, Value.str "Outside"⟩) := by
    intro o ho
    rw [← ho]
    rfl
  rcases classifyLineAux_first_match within disjoint g stations with
    ⟨pre, gid, poly, post, heq, hpre, hres⟩ | ⟨hall, hres⟩
  · left
    refine ⟨pre, gid, poly, post, heq, hpre, ?_⟩
    rcases hres with ⟨hw, hcl⟩ | ⟨hw, hd, hcl⟩
    · exact Or.inl ⟨hw, hup _ hcl⟩
    · exact Or.inr ⟨hw, hd, hup _ hcl⟩
  · right
    exact ⟨hall, hup _ hres⟩

/-- Witness for the amended C3 at the concrete counterexample input: the
first matching station is `"A"` via the non-disjoint branch. -/
theorem update_line_fc_first_match_spec_witness :
    LineClassSpec (fun (_ p : Nat) => p == 2) (fun _ _ => false)
      [(Value.str "A", (some 1 : Option Nat)), (Value.str "B", some 2)]
      ⟨some 0, Value.null, Value.null⟩ 0 :=
  update_line_fc_first_match_spec (fun _ p => p == 2) (fun _ _ => false)
    [(Value.str "A", (some 1 : Option Nat)), (Value.str "B", some 2)]
    ⟨some 0, Value.null, Value.null⟩ 0 rfl

/-- A row of the target feature class of
`update_field_based_on_whether_it_lies`: `MIG_PARENTTYPE` and `OBJECTID`,
in the order the `UpdateCursor` retrieves them. -/
structure TRow where
  parenttype : Value
  oid : Value
  deriving DecidableEq, Repr

/-- One pass of the `UpdateCursor` loop of
`update_field_based_on_whether_it_lies` (BG lines 220-226) for the layer
currently processed: rows whose `OBJECTID` is in `features_to_update`
receive the layer's value and their id is added to `updated_features`;
the other rows are not written. -/
def updatePass (ftu : List Value) (value : String) :
    List TRow → List Value → List TRow × List Value
  | [], updated => ([], updated)
  | r :: rs, updated =>
    if r.oid ∈ ftu then
      let res := updatePass ftu value rs (r.oid :: updated)
      ({ r with parenttype := Value.str value } :: res.1, res.2)
    else
      let res := updatePass ftu value rs updated
      (r :: res.1, res.2)

/-- The layer loop of `update_field_based_on_whether_it_lies` (BG lines
206-237): each mapping layer is spatially joined to the target (the join
is abstract, so a layer is given by the list of `TARGET_FID` values it
produced together with the value to assign), `features_to_update` keeps
the joined fids not already in `updated_features`, and the update pass
runs over the target rows. -/
def runLayers : List (List Value × String) → List TRow → List Value → List TRow
  | [], rows, _ => rows
  | (fids, value) :: rest, rows, updated =>
    let ftu := fids.filter (fun f => !(updated.contains f))
    let res := updatePass ftu value rows updated
    runLayers rest res.1 res.2

/-- `update_field_based_on_whether_it_lies` (BG lines 196-239, ROM lines
136-165): the layer loop starting from an empty `updated_features` set. -/
def update_field_based_on_whether_it_lies (layers : List (List Value × String))
    (rows : List TRow) : List TRow :=
  runLayers layers rows []

/-- The value of the first layer, in mapping iteration order, whose
spatial-join fids contain the given object id. -/
def firstLayerValue (layers : List (List Value × String)) (oid : Value) : Option String :=
  (layers.find? (fun l => l.1.contains oid)).map (fun l => l.2)

theorem updatePass_rows (ftu : List Value) (value : String) (rows : List TRow) :
    ∀ (updated : List Value) (i : Nat) (r : TRow), rows[i]? = some r →
      (updatePass ftu value rows updated).1[i]? =
        some (if r.oid ∈ ftu then { r with parenttype := Value.str value } else r) := by
  induction rows with
  | nil => intro updated i r hr; cases hr
  | cons a rs ih =>
    intro updated i r hr
    by_cases hmem : a.oid ∈ ftu
    · simp only [updatePass, if_pos hmem]
      match i with
      | 0 =>
        have : r = a := by simpa using hr.symm
        subst this
        simp [if_pos hmem]
      | i + 1 =>
        have hr' : rs[i]? = some r := by simpa using hr
        simpa using ih (a.oid :: updated) i r hr'
    · simp only [updatePass, if_neg hmem]
      match i with
      | 0 =>
        have : r = a := by simpa using hr.symm
        subst this
        simp [if_neg hmem]
      | i + 1 =>
        have hr' : rs[i]? = some r := by simpa using hr
        simpa using ih updated i r hr'

theorem updatePass_updated (ftu : List Value) (value : String) (rows : List TRow) :
    ∀ (updated : List Value) (x : Value),
      (x ∈ (updatePass ftu value rows updated).2 ↔
        x ∈ updated ∨ (x ∈ ftu ∧ ∃ q ∈ rows, q.oid = x)) := by
  induction rows with
  | nil => intro updated x; simp [updatePass]
  | cons a rs ih =>
    intro updated x
    by_cases hmem : a.oid ∈ ftu
    · simp only [updatePass, if_pos hmem]
      rw [ih (a.oid :: updated) x]
      constructor
      · rintro (h | ⟨hx, q, hq, hoid⟩)
        · rcases List.mem_cons.mp h with h1 | h1
          · subst h1
            exact Or.inr ⟨hmem, a, List.mem_cons_self a rs, rfl⟩
          · exact Or.inl h1
        · exact Or.inr ⟨hx, q, List.mem_cons_of_mem a hq, hoid⟩
      · rintro (h | ⟨hx, q, hq, hoid⟩)
        · exact Or.inl (List.mem_cons_of_mem a.oid h)
        · rcases List.mem_cons.mp hq with h1 | h1
          · subst h1
            subst hoid
            exact Or.inl (List.mem_cons_self q.oid updated)
          · exact Or.inr ⟨hx, q, h1, hoid⟩
    · simp only [updatePass, if_neg hmem]
      rw [ih updated x]
      constructor
      · rintro (h | ⟨hx, q, hq, hoid⟩)
        · exact Or.inl h
        · exact Or.inr ⟨hx, q, List.mem_cons_of_mem a hq, hoid⟩
      · rintro (h | ⟨hx, q, hq, hoid⟩)
        · exact Or.inl h
        · rcases List.mem_cons.mp hq with h1 | h1
          · subst h1
            subst hoid
            exact absurd hx hmem
          · exact Or.inr ⟨hx, q, h1, hoid⟩

theorem runLayers_getElem (layers : List (List Value × String)) :
    ∀ (rows : List TRow) (updated : List Value) (i : Nat) (r : TRow),
      rows[i]? = some r →
      (runLayers layers rows updated)[i]? =
        some (if r.oid ∈ updated then r
          else match firstLayerValue layers r.oid with
            | some v => { r with parenttype := Value.str v }
            | none => r) := by
  induction layers with
  | nil =>
    intro rows updated i r hr
    simp only [runLayers, firstLayerValue, List.find?_nil, Option.map_none]
    rw [hr]
    by_cases h : r.oid ∈ updated <;> simp [h]
  | cons l rest ih =>
    intro rows updated i r hr
    match hl : l with
    | (fids, value) =>
      have hrun : runLayers ((fids, value) :: rest) rows updated =
          runLayers rest
            (updatePass (fids.filter (fun f => !(updated.contains f))) value rows updated).1
            (updatePass (fids.filter (fun f => !(updated.contains f))) value rows updated).2 := rfl
      rw [hrun]
      set ftu := fids.filter (fun f => !(updated.contains f)) with hftu
      have hmemr : r ∈ rows := by
        have := List.getElem?_eq_some_iff.mp hr
        rcases this with ⟨hlt, hget⟩
        exact hget ▸ List.getElem_mem hlt
      have hrows := updatePass_rows ftu value rows updated i r hr
      by_cases hupd : r.oid ∈ updated
      · have hnotftu : r.oid ∉ ftu := by
          rw [hftu]
          intro hc
          have := (List.mem_filter.mp hc).2
          simp at this
          exact this hupd
        have hr' : (updatePass ftu value rows updated).1[i]? = some r := by
          rw [hrows, if_neg hnotftu]
        have := ih (updatePass ftu value rows updated).1
            (updatePass ftu value rows updated).2 i r hr'
        rw [this]
        have hupd' : r.oid ∈ (updatePass ftu value rows updated).2 := by
          rw [updatePass_updated]
          exact Or.inl hupd
        rw [if_pos hupd', if_pos hupd]
      · by_cases hfid : r.oid ∈ fids
        · have hinftu : r.oid ∈ ftu := by
            rw [hftu]
            rw [List.mem_filter]
            refine ⟨hfid, ?_⟩
            simpa using hupd
          have hr' : (updatePass ftu value rows updated).1[i]? =
              some { r with parenttype := Value.str value } := by
            rw [hrows, if_pos hinftu]
          have := ih (updatePass ftu value rows updated).1
              (updatePass ftu value rows updated).2 i
              { r with parenttype := Value.str value } hr'
          rw [this]
          have hupd' : r.oid ∈ (updatePass ftu value rows updated).2 := by
            rw [updatePass_updated]
            exact Or.inr ⟨hinftu, r, hmemr, rfl⟩
          have hfl : firstLayerValue ((fids, value) :: rest) r.oid = some value := by
            unfold firstLayerValue
            have : ((fids, value) :: rest).find? (fun l => l.1.contains r.oid) =
                some (fids, value) := by
              rw [List.find?_cons_of_pos]
              simpa using hfid
            rw [this]
            rfl
          rw [show ({ r with parenttype := Value.str value } : TRow).oid = r.oid from rfl,
            if_pos hupd', if_neg hupd, hfl]
        · have hnotftu : r.oid ∉ ftu := by
            rw [hftu]
            intro hc
            exact hfid (List.mem_filter.mp hc).1
          have hr' : (updatePass ftu value rows updated).1[i]? = some r := by
            rw [hrows, if_neg hnotftu]
          have := ih (updatePass ftu value rows updated).1
              (updatePass ftu value rows updated).2 i r hr'
          rw [this]
          have hupd' : r.oid ∉ (updatePass ftu value rows updated).2 := by
            rw [updatePass_updated]
            rintro (h | ⟨hx, _, _, _⟩)
            · exact hupd h
            · exact hnotftu hx
          have hfl : firstLayerValue ((fids, value) :: rest) r.oid =
              firstLayerValue rest r.oid := by
            unfold firstLayerValue
            rw [List.find?_cons_of_neg]
            simpa using hfid
          rw [if_neg hupd', if_neg hupd, hfl]

/-- C8: in `update_field_based_on_whether_it_lies`, a target row's
`MIG_PARENTTYPE` ends with the value of the first layer in the mapping's
iteration order whose spatial join hit its `OBJECTID` (and is untouched
when no layer hit it): once an earlier layer has claimed a feature in
`updated_features`, no later layer overwrites it, so the field is written
by at most that one layer. -/
theorem update_field_based_on_whether_it_lies_first_layer_wins
    (layers : List (List Value × String)) (rows : List TRow) (i : Nat) (r : TRow)
    (hr : rows[i]? = some r) :
    (update_field_based_on_whether_it_lies layers rows)[i]? =
      some (match firstLayerValue layers r.oid with
        | some v => { r with parenttype := Value.str v }
        | none => r) := by
  have h := runLayers_getElem layers rows [] i r hr
  unfold update_field_based_on_whether_it_lies
  rw [h, if_neg (by simp)]

/-- Witness for C8 at a concrete input: object id `7` is hit by both
layers, and the row ends with the first layer's value `"Busbar"`. -/
theorem update_field_based_on_whether_it_lies_first_layer_wins_witness :
    (update_field_based_on_whether_it_lies
        [([Value.int 7], "Busbar"), ([Value.int 7], "Conductor")]
        [⟨Value.null, Value.int 7⟩])[0]? = some ⟨Value.str "Busbar", Value.int 7⟩ := by
  have h := update_field_based_on_whether_it_lies_first_layer_wins
      [([Value.int 7], "Busbar"), ([Value.int 7], "Conductor")]
      [⟨Value.null, Value.int 7⟩] 0 ⟨Value.null, Value.int 7⟩ rfl
  rw [h]
  rfl

/-- The field-management part of `update_line_fc_within_station_boundary`
and `update_point_fc_within_station_boundary` (BG lines 309-314 and
355-358, ROM lines 223-230 and 253-255): the helper status field
(`LINE_STATUS` / `POINT_STATUS`) is added with `AddField` only when it is
absent from the feature class's field list, `field_added` records whether
that happened, and at the end `DeleteField` removes the field exactly
when `field_added` is set.  The result is the final field list together
with whether a delete was performed. -/
def statusFieldLifecycle (fields : List String) (field_name : String) :
    List String × Bool :=
  let field_added := !(fields.contains field_name)
  let fields1 := if fields.contains field_name then fields else fields ++ [field_name]
  if field_added then (fields1.erase field_name, true) else (fields1, false)

/-- C9: the status-field bookkeeping of the two boundary routines leaves
the feature class's field list exactly as it found it, and the helper
field is deleted precisely when the routine itself added it, so a
pre-existing field of that name is never deleted. -/
theorem statusFieldLifecycle_round_trip (fields : List String) (field_name : String) :
    (statusFieldLifecycle fields field_name).1 = fields ∧
    ((statusFieldLifecycle fields field_name).2 = true ↔
      fields.contains field_name = false) := by
  by_cases hc : fields.contains field_name = true
  · unfold statusFieldLifecycle
    rw [hc]
    simp
  · have hc' : fields.contains field_name = false := by
      rcases Bool.eq_false_or_eq_true (fields.contains field_name) with h | h
      · exact absurd h hc
      · exact h
    have hnotmem : field_name ∉ fields := by
      simpa using hc'
    unfold statusFieldLifecycle
    rw [hc']
    simp only [Bool.not_false, if_true, if_false]
    refine ⟨?_, by simp⟩
    rw [if_neg (by simp), List.erase_append_right _ hnotmem]
    simp

/-- Witness for C9 at a concrete input: a feature class without a
`LINE_STATUS` field gets it added and deleted again, ending with its
original field list. -/
theorem statusFieldLifecycle_round_trip_witness :
    (statusFieldLifecycle ["OBJECTID", "MIG_STATIONGUID"] "LINE_STATUS").1 =
      ["OBJECTID", "MIG_STATIONGUID"] ∧
    ((statusFieldLifecycle ["OBJECTID", "MIG_STATIONGUID"] "LINE_STATUS").2 = true ↔
      (["OBJECTID", "MIG_STATIONGUID"] : List String).contains "LINE_STATUS" = false) :=
  statusFieldLifecycle_round_trip ["OBJECTID", "MIG_STATIONGUID"] "LINE_STATUS"

